import Mathlib

/-!
Shallow embedding of `src/paleonotology.py`: the `KFPaleontologist` query
facade over an external ML-Metadata (MLMD) store, and its lineage
visualizer.

The external store is modelled as an explicit `MetadataStore` value threaded
through every facade method (stateful code becomes explicit state passing).
Structured store calls (`get_events_by_execution_ids`, `get_artifacts_by_id`,
...) are modelled as pure reads of the store's record lists; the calls that
pass an opaque filter-query string (`get_executions(list_options=...)`,
`get_artifacts(list_options=...)`, `get_lineage_subgraph`) are modelled as
black-box query functions carried by the store, so that theorems can
hypothesise exactly what the store returns for a given query string.
Python's `IndexError` on indexing an empty result list is modelled by
`Except`.
-/

namespace MLMD

/-- A typed custom-property value, the vocabulary of the MLMD store
(`int_value`, `string_value`, `double_value`, `bool_value`).  The double
payload is carried as its decimal rendering; nothing in the facade computes
with it. -/
inductive PValue where
  | intV : Int → PValue
  | stringV : String → PValue
  | doubleV : String → PValue
  | boolV : Bool → PValue
deriving DecidableEq, Repr

/-- An MLMD `Artifact`: integer id, a URI, a type name. -/
structure Artifact where
  id : Int
  uri : String
  type : String
deriving DecidableEq, Repr

/-- An MLMD `Execution`: integer id, name, type name, custom properties. -/
structure Execution where
  id : Int
  name : String
  type : String
  custom_properties : List (String × PValue)
deriving DecidableEq, Repr

/-- The `Event.Type` enum of the MLMD proto. -/
inductive EventType where
  | UNKNOWN
  | DECLARED_OUTPUT
  | DECLARED_INPUT
  | INPUT
  | OUTPUT
  | INTERNAL_INPUT
  | INTERNAL_OUTPUT
  | PENDING_OUTPUT
deriving DecidableEq, Repr

/-- An MLMD `Event`: links one artifact id to one execution id with a type. -/
structure Event where
  artifact_id : Int
  execution_id : Int
  type : EventType
deriving DecidableEq, Repr

/-- An MLMD `Context`: integer id and a name. -/
structure Context where
  id : Int
  name : String
deriving DecidableEq, Repr

/-- An MLMD `Association`: membership of an execution in a context. -/
structure Association where
  execution_id : Int
  context_id : Int
deriving DecidableEq, Repr

/-- An MLMD `Attribution`: membership of an artifact in a context. -/
structure Attribution where
  artifact_id : Int
  context_id : Int
deriving DecidableEq, Repr

/-- An MLMD `LineageGraph`: the bundle returned by a lineage traversal. -/
structure LineageGraph where
  artifacts : List Artifact
  executions : List Execution
  contexts : List Context
  events : List Event
  associations : List Association
  attributions : List Attribution
deriving DecidableEq, Repr

/-- Model of the external MLMD store.  `executions`, `artifacts` and
`events` are the stored records (in the store's listing order); the three
`*_query` fields are the store's black-box evaluators for the opaque
filter-query strings the facade builds — their semantics are owned by the
store, so theorems constrain them by hypothesis. -/
structure MetadataStore where
  executions : List Execution
  artifacts : List Artifact
  events : List Event
  executions_query : String → List Execution
  artifacts_query : String → List Artifact
  lineage_query : String → LineageGraph

/-- Model of the store method `get_events_by_execution_ids`: the events
whose execution id is among the requested ids, in the store's
event-listing order. -/
def MetadataStore.get_events_by_execution_ids (s : MetadataStore)
    (execution_ids : List Int) : List Event :=
  s.events.filter (fun ev => execution_ids.contains ev.execution_id)

/-- Model of the store method `get_events_by_artifact_ids`: the events
whose artifact id is among the requested ids, in the store's event-listing
order. -/
def MetadataStore.get_events_by_artifact_ids (s : MetadataStore)
    (artifact_ids : List Int) : List Event :=
  s.events.filter (fun ev => artifact_ids.contains ev.artifact_id)

/-- Model of the store method `get_artifacts_by_id`.  Modelled from the
spec: §4.1 states that `get_artifacts_from_run` returns the artifacts
"once per qualifying event", without deduplication, so the store answers
one artifact per requested id — an id requested twice yields its artifact
twice, and unknown ids yield nothing. -/
def MetadataStore.get_artifacts_by_id (s : MetadataStore)
    (artifact_ids : List Int) : List Artifact :=
  artifact_ids.filterMap (fun i => s.artifacts.find? (fun a => a.id == i))

/-- Model of the store method `get_executions_by_id`.  Modelled from the
spec: §4.1 describes `get_artifact_execution_history` as "Events for one
artifact id → distinct execution ids → Executions", so the store answers
each matching execution once however often its id occurs among the
requested ids (set-membership semantics). -/
def MetadataStore.get_executions_by_id (s : MetadataStore)
    (execution_ids : List Int) : List Execution :=
  s.executions.filter (fun e => execution_ids.contains e.id)

/-- Model of the store method `get_artifacts_by_uri`: the stored artifacts
with the requested URI, in the store's listing order. -/
def MetadataStore.get_artifacts_by_uri (s : MetadataStore)
    (uri : String) : List Artifact :=
  s.artifacts.filter (fun a => a.uri == uri)

/-- Model of the store method `get_artifacts_by_type`. -/
def MetadataStore.get_artifacts_by_type (s : MetadataStore)
    (artifact_type : String) : List Artifact :=
  s.artifacts.filter (fun a => a.type == artifact_type)

/-- Model of the store method `get_executions_by_type`. -/
def MetadataStore.get_executions_by_type (s : MetadataStore)
    (execution_type : String) : List Execution :=
  s.executions.filter (fun e => e.type == execution_type)

/-- Python exceptions the facade can raise.  Indexing an empty list raises
`IndexError("list index out of range")`.  `NotFound` is the named error the
spec's error taxonomy (§7) calls for; the code never raises it. -/
inductive PyError where
  | IndexError : String → PyError
  | NotFound : String → PyError
deriving DecidableEq, Repr

/-- A Python value passed to the `get_*_by_custom_property` methods.  A
float is carried by its decimal rendering, the only aspect the code uses. -/
inductive PyValue where
  | pyStr : String → PyValue
  | pyInt : Int → PyValue
  | pyFloat : String → PyValue
  | pyBool : Bool → PyValue
deriving DecidableEq, Repr

/-- Python `type(value).__name__` for the modelled value kinds. -/
def PyValue.typeName : PyValue → String
  | .pyStr _ => "str"
  | .pyInt _ => "int"
  | .pyFloat _ => "float"
  | .pyBool _ => "bool"

/-- Python `type(value) == str`. -/
def PyValue.isStr : PyValue → Bool
  | .pyStr _ => true
  | _ => false

/-- Python `str(value)`, as performed by the f-string interpolation. -/
def PyValue.str : PyValue → String
  | .pyStr v => v
  | .pyInt v => toString v
  | .pyFloat v => v
  | .pyBool v => if v then "True" else "False"

/-- Python `str.lower()` (character-wise lowering; the type names it is
applied to are ASCII). -/
def pyLower (s : String) : String := ⟨s.data.map Char.toLower⟩

namespace KFPaleontologist

/-- `KFPaleontologist.get_executions` (src lines 37–54): fetch the
executions matching `name="run/{run_id}"`, take element `[0]`
(`IndexError` when empty), fetch the executions whose custom property
`parent_dag_id` (int) equals that root's id, return root followed by the
children. -/
def get_executions (run_id : String) (s : MetadataStore) :
    Except PyError (List Execution) × MetadataStore :=
  let run_executions := s.executions_query ("name=\"run/" ++ run_id ++ "\"")
  match run_executions with
  | [] => (.error (.IndexError "list index out of range"), s)
  | root :: _ =>
    let container_executions := s.executions_query
      ("custom_properties.parent_dag_id.int_value=" ++ toString root.id)
    (.ok ([root] ++ container_executions), s)

/-- `KFPaleontologist.get_artifacts_from_run` (src lines 17–33): the run's
executions, their events, the events' artifact ids, the artifacts for
those ids. -/
def get_artifacts_from_run (run_id : String) (s : MetadataStore) :
    Except PyError (List Artifact) × MetadataStore :=
  match get_executions run_id s with
  | (.error e, s1) => (.error e, s1)
  | (.ok container_executions, s1) =>
    let container_execution_ids := container_executions.map (fun c => c.id)
    let events := s1.get_events_by_execution_ids container_execution_ids
    let artifact_ids := events.map (fun ev => ev.artifact_id)
    (.ok (s1.get_artifacts_by_id artifact_ids), s1)

/-- `KFPaleontologist.get_artifacts_from_execution` (src lines 58–65). -/
def get_artifacts_from_execution (execution_id : Int) (s : MetadataStore) :
    List Artifact × MetadataStore :=
  let events := s.get_events_by_execution_ids [execution_id]
  let artifact_ids := events.map (fun ev => ev.artifact_id)
  (s.get_artifacts_by_id artifact_ids, s)

/-- `KFPaleontologist.get_artifact_execution_history` (src lines 69–76):
events for the one artifact id, their execution ids, the executions for
those ids. -/
def get_artifact_execution_history (artifact_id : Int) (s : MetadataStore) :
    List Execution × MetadataStore :=
  let events := s.get_events_by_artifact_ids [artifact_id]
  let execution_ids := events.map (fun ev => ev.execution_id)
  (s.get_executions_by_id execution_ids, s)

/-- `KFPaleontologist.get_artifact_lineage` (src lines 79–87): lineage
subgraph for the starting filter `id = {artifact_id}`. -/
def get_artifact_lineage (artifact_id : Int) (s : MetadataStore) :
    LineageGraph × MetadataStore :=
  (s.lineage_query ("id = " ++ toString artifact_id), s)

/-- `KFPaleontologist.get_artifact_by_id` (src lines 90–92). -/
def get_artifact_by_id (artifact_id : Int) (s : MetadataStore) :
    Except PyError Artifact × MetadataStore :=
  match s.get_artifacts_by_id [artifact_id] with
  | [] => (.error (.IndexError "list index out of range"), s)
  | a :: _ => (.ok a, s)

/-- `KFPaleontologist.get_artifact_by_uri` (src lines 95–97): fetch by URI,
return element `[0]` (`IndexError` when empty). -/
def get_artifact_by_uri (artifact_uri : String) (s : MetadataStore) :
    Except PyError Artifact × MetadataStore :=
  match s.get_artifacts_by_uri artifact_uri with
  | [] => (.error (.IndexError "list index out of range"), s)
  | a :: _ => (.ok a, s)

/-- `KFPaleontologist.get_execution_by_id` (src lines 100–102). -/
def get_execution_by_id (execution_id : Int) (s : MetadataStore) :
    Except PyError Execution × MetadataStore :=
  match s.get_executions_by_id [execution_id] with
  | [] => (.error (.IndexError "list index out of range"), s)
  | e :: _ => (.ok e, s)

/-- `KFPaleontologist.get_artifacts_by_type` (src lines 105–107). -/
def get_artifacts_by_type (artifact_type : String) (s : MetadataStore) :
    List Artifact × MetadataStore :=
  (s.get_artifacts_by_type artifact_type, s)

/-- `KFPaleontologist.get_executions_by_type` (src lines 110–112). -/
def get_executions_by_type (execution_type : String) (s : MetadataStore) :
    List Execution × MetadataStore :=
  (s.get_executions_by_type execution_type, s)

/-- `KFPaleontologist.get_artifacts_by_custom_property` (src lines
115–128): derive the filter suffix from the value's runtime type
(`str` maps to `string`, anything else to its lowercased type name) and
query the store with
`custom_properties.{name}.{suffix}_value="{value}"`. -/
def get_artifacts_by_custom_property (custom_property : String)
    (value : PyValue) (s : MetadataStore) :
    List Artifact × MetadataStore :=
  let property_type :=
    if value.isStr then "string" else pyLower value.typeName
  (s.artifacts_query
    ("custom_properties." ++ custom_property ++ "." ++ property_type
      ++ "_value=\"" ++ value.str ++ "\""), s)

/-- `KFPaleontologist.get_executions_by_custom_property` (src lines
131–144): same filter construction as for artifacts, querying
executions. -/
def get_executions_by_custom_property (custom_property : String)
    (value : PyValue) (s : MetadataStore) :
    List Execution × MetadataStore :=
  let property_type :=
    if value.isStr then "string" else pyLower value.typeName
  (s.executions_query
    ("custom_properties." ++ custom_property ++ "." ++ property_type
      ++ "_value=\"" ++ value.str ++ "\""), s)

end KFPaleontologist

/-- A graphviz node as the visualizer describes it: id, label, shape,
style, color. -/
structure DotNode where
  id : String
  label : String
  shape : String
  style : String
  color : String
deriving DecidableEq, Repr

/-- A graphviz directed edge with a label. -/
structure DotEdge where
  src : String
  dst : String
  label : String
deriving DecidableEq, Repr

/-- The diagram assembled by the graphviz `Digraph` object: comment plus
nodes and edges in insertion order. -/
structure Digraph where
  comment : String
  nodes : List DotNode
  edges : List DotEdge
deriving DecidableEq, Repr

/-- `dot.node(...)` appends a node. -/
def Digraph.addNode (d : Digraph) (n : DotNode) : Digraph :=
  { d with nodes := d.nodes ++ [n] }

/-- `dot.edge(...)` appends an edge. -/
def Digraph.addEdge (d : Digraph) (e : DotEdge) : Digraph :=
  { d with edges := d.edges ++ [e] }

/-- The node emitted for an artifact (src line 154). -/
def artifactNode (artifact : Artifact) : DotNode :=
  { id := "Artifact-" ++ toString artifact.id
    label := "Artifact: " ++ artifact.uri
    shape := "box", style := "filled", color := "lightblue" }

/-- The node emitted for an execution (src line 157). -/
def executionNode (execution : Execution) : DotNode :=
  { id := "Execution-" ++ toString execution.id
    label := execution.type ++ ": " ++ toString execution.id
    shape := "ellipse", style := "filled", color := "lightgreen" }

/-- The node emitted for a context (src line 166). -/
def contextNode (context : Context) : DotNode :=
  { id := "Context-" ++ toString context.id
    label := "Context: " ++ context.name
    shape := "ellipse", style := "filled", color := "lightyellow" }

/-- The edge contributed by one event in the visualizer's event loop
(src lines 160–164): `INPUT` gives Artifact→Execution labeled "input",
`OUTPUT` gives Execution→Artifact labeled "output", any other type gives
no edge. -/
def eventEdge (event : Event) : Option DotEdge :=
  if event.type = .INPUT then
    some { src := "Artifact-" ++ toString event.artifact_id
           dst := "Execution-" ++ toString event.execution_id
           label := "input" }
  else if event.type = .OUTPUT then
    some { src := "Execution-" ++ toString event.execution_id
           dst := "Artifact-" ++ toString event.artifact_id
           label := "output" }
  else none

/-- The edge emitted for an attribution record (src line 169). -/
def attributionEdge (attribution : Attribution) : DotEdge :=
  { src := "Artifact-" ++ toString attribution.artifact_id
    dst := "Context-" ++ toString attribution.context_id
    label := "attribution" }

/-- The edge emitted for an association record (src line 172). -/
def associationEdge (association : Association) : DotEdge :=
  { src := "Execution-" ++ toString association.execution_id
    dst := "Context-" ++ toString association.context_id
    label := "association" }

namespace KFPaleontologist

/-- `KFPaleontologist.visualize_lineage` (src lines 146–174), modelled up
to the assembled diagram; the final `dot.render` call hands the diagram
unchanged to the external backend.  Both boolean flags default to off, in
the source's argument order. -/
def visualize_lineage (lineage : LineageGraph)
    (display_association : Bool := false)
    (display_attribution : Bool := false) : Digraph :=
  let dot : Digraph := { comment := "MLMD Lineage Graph", nodes := [], edges := [] }
  let dot := lineage.artifacts.foldl (fun d artifact => d.addNode (artifactNode artifact)) dot
  let dot := lineage.executions.foldl (fun d execution => d.addNode (executionNode execution)) dot
  let dot := lineage.events.foldl
    (fun d event =>
      match eventEdge event with
      | some e => d.addEdge e
      | none => d) dot
  let dot := lineage.contexts.foldl (fun d context => d.addNode (contextNode context)) dot
  let dot :=
    if display_attribution then
      lineage.attributions.foldl (fun d attribution => d.addEdge (attributionEdge attribution)) dot
    else dot
  let dot :=
    if display_association then
      lineage.associations.foldl (fun d association => d.addEdge (associationEdge association)) dot
    else dot
  dot

end KFPaleontologist

/-! ### Helper lemmas about the assembled diagram -/

theorem foldl_addNode_nodes {α : Type} (f : α → DotNode) (l : List α) (d : Digraph) :
    (l.foldl (fun d a => d.addNode (f a)) d).nodes = d.nodes ++ l.map f := by
  induction l generalizing d with
  | nil => simp
  | cons x xs ih => rw [List.foldl_cons, ih]; simp [Digraph.addNode]

theorem foldl_addNode_edges {α : Type} (f : α → DotNode) (l : List α) (d : Digraph) :
    (l.foldl (fun d a => d.addNode (f a)) d).edges = d.edges := by
  induction l generalizing d with
  | nil => rfl
  | cons x xs ih => rw [List.foldl_cons, ih]; rfl

theorem foldl_addEdge_edges {α : Type} (f : α → DotEdge) (l : List α) (d : Digraph) :
    (l.foldl (fun d a => d.addEdge (f a)) d).edges = d.edges ++ l.map f := by
  induction l generalizing d with
  | nil => simp
  | cons x xs ih => rw [List.foldl_cons, ih]; simp [Digraph.addEdge]

theorem foldl_addEdge_nodes {α : Type} (f : α → DotEdge) (l : List α) (d : Digraph) :
    (l.foldl (fun d a => d.addEdge (f a)) d).nodes = d.nodes := by
  induction l generalizing d with
  | nil => rfl
  | cons x xs ih => rw [List.foldl_cons, ih]; rfl

theorem foldl_eventStep_edges (l : List Event) (d : Digraph) :
    (l.foldl (fun d event =>
        match eventEdge event with
        | some e => d.addEdge e
        | none => d) d).edges = d.edges ++ l.filterMap eventEdge := by
  induction l generalizing d with
  | nil => simp
  | cons x xs ih =>
    cases h : eventEdge x with
    | none =>
      rw [List.foldl_cons]
      simp only [h]
      rw [ih, List.filterMap_cons, h]
    | some e =>
      rw [List.foldl_cons]
      simp only [h]
      rw [ih, List.filterMap_cons, h]
      simp [Digraph.addEdge]

theorem foldl_eventStep_nodes (l : List Event) (d : Digraph) :
    (l.foldl (fun d event =>
        match eventEdge event with
        | some e => d.addEdge e
        | none => d) d).nodes = d.nodes := by
  induction l generalizing d with
  | nil => rfl
  | cons x xs ih =>
    cases h : eventEdge x with
    | none =>
      rw [List.foldl_cons]
      simp only [h]
      rw [ih]
    | some e =>
      rw [List.foldl_cons]
      simp only [h]
      rw [ih]
      rfl

/-- The full edge list of the assembled diagram: event edges in event
order, then (flag permitting) one attribution edge per attribution, then
(flag permitting) one association edge per association. -/
theorem visualize_lineage_edges (g : LineageGraph) (assoc attrib : Bool) :
    (KFPaleontologist.visualize_lineage g assoc attrib).edges =
      g.events.filterMap eventEdge
        ++ (if attrib then g.attributions.map attributionEdge else [])
        ++ (if assoc then g.associations.map associationEdge else []) := by
  cases assoc <;> cases attrib <;>
    simp [KFPaleontologist.visualize_lineage, foldl_addNode_edges,
      foldl_eventStep_edges, foldl_addEdge_edges, List.append_assoc]

/-- The full node list of the assembled diagram: one node per artifact,
then one per execution, then one per context. -/
theorem visualize_lineage_nodes (g : LineageGraph) (assoc attrib : Bool) :
    (KFPaleontologist.visualize_lineage g assoc attrib).nodes =
      g.artifacts.map artifactNode ++ g.executions.map executionNode
        ++ g.contexts.map contextNode := by
  cases assoc <;> cases attrib <;>
    simp [KFPaleontologist.visualize_lineage, foldl_addNode_nodes,
      foldl_eventStep_nodes, foldl_addEdge_nodes, List.append_assoc]

theorem eventEdge_label (ev : Event) (e : DotEdge) (h : eventEdge ev = some e) :
    e.label = "input" ∨ e.label = "output" := by
  unfold eventEdge at h
  split at h
  · exact Or.inl (by cases h; rfl)
  · split at h
    · exact Or.inr (by cases h; rfl)
    · exact absurd h (by simp)

theorem eventEdges_filter_other (l : List Event) (lbl : String)
    (h1 : lbl ≠ "input") (h2 : lbl ≠ "output") :
    (l.filterMap eventEdge).filter (fun e => e.label == lbl) = [] := by
  rw [List.filter_eq_nil_iff]
  intro e he
  rcases List.mem_filterMap.mp he with ⟨ev, _, hev⟩
  rcases eventEdge_label ev e hev with h | h <;>
    simp [h, beq_iff_eq] <;> intro hh <;> [exact h1 hh.symm; exact h2 hh.symm]

theorem length_filterMap_of_isSome {α β : Type} (f : α → Option β) (l : List α)
    (h : ∀ a ∈ l, (f a).isSome) : (l.filterMap f).length = l.length := by
  induction l with
  | nil => rfl
  | cons x xs ih =>
    rcases Option.isSome_iff_exists.mp (h x (by simp)) with ⟨b, hb⟩
    simp [List.filterMap_cons, hb, ih (fun a ha => h a (by simp [ha]))]

theorem length_filterMap_eq_length_filter {α β : Type} (f : α → Option β) (l : List α) :
    (l.filterMap f).length = (l.filter (fun a => (f a).isSome)).length := by
  induction l with
  | nil => rfl
  | cons x xs ih =>
    cases h : f x <;> simp [List.filterMap_cons, List.filter_cons, h, ih]

/-! ### Concrete sample data for witnesses and failing inputs -/

/-- The empty lineage graph (answer of the sample stores' black-box
lineage query). -/
def emptyGraph : LineageGraph :=
  { artifacts := [], executions := [], contexts := [], events := [],
    associations := [], attributions := [] }

/-- A store with no records; every query returns nothing. -/
def emptyStore : MetadataStore :=
  { executions := [], artifacts := [], events := [],
    executions_query := fun _ => [],
    artifacts_query := fun _ => [],
    lineage_query := fun _ => emptyGraph }

/-- The root (DAG) execution of the sample run `r1`. -/
def sampleRoot : Execution :=
  { id := 7, name := "run/r1", type := "system.DAGExecution",
    custom_properties := [] }

/-- First container execution of the sample run, child of `sampleRoot`. -/
def sampleChild1 : Execution :=
  { id := 8, name := "trainer", type := "system.ContainerExecution",
    custom_properties := [("parent_dag_id", .intV 7)] }

/-- Second container execution of the sample run, child of `sampleRoot`. -/
def sampleChild2 : Execution :=
  { id := 9, name := "evaluator", type := "system.ContainerExecution",
    custom_properties := [("parent_dag_id", .intV 7)] }

/-- A dataset artifact consumed by both container executions. -/
def sampleArtifact1 : Artifact :=
  { id := 21, uri := "gs://bucket/data", type := "system.Dataset" }

/-- A model artifact produced by the second container execution. -/
def sampleArtifact2 : Artifact :=
  { id := 22, uri := "gs://bucket/model", type := "system.Model" }

/-- A sample store holding the run `r1`: one root execution, two children
carrying `parent_dag_id = 7`, a dataset consumed by both children and a
model produced by one.  Its black-box execution query answers the two
filter strings the facade builds for run `r1`. -/
def sampleStore : MetadataStore :=
  { executions := [sampleRoot, sampleChild1, sampleChild2],
    artifacts := [sampleArtifact1, sampleArtifact2],
    events :=
      [ { artifact_id := 21, execution_id := 8, type := .INPUT },
        { artifact_id := 21, execution_id := 9, type := .INPUT },
        { artifact_id := 22, execution_id := 9, type := .OUTPUT } ],
    executions_query := fun q =>
      if q == "name=\"run/r1\"" then [sampleRoot]
      else if q == "custom_properties.parent_dag_id.int_value=7" then
        [sampleChild1, sampleChild2]
      else [],
    artifacts_query := fun _ => [],
    lineage_query := fun _ => emptyGraph }

/-- A store in which artifact 21 is linked to execution 8 by two events
and to execution 9 by one. -/
def histStore : MetadataStore :=
  { executions := [sampleChild1, sampleChild2],
    artifacts := [sampleArtifact1],
    events :=
      [ { artifact_id := 21, execution_id := 8, type := .INPUT },
        { artifact_id := 21, execution_id := 8, type := .OUTPUT },
        { artifact_id := 21, execution_id := 9, type := .INPUT } ],
    executions_query := fun _ => [],
    artifacts_query := fun _ => [],
    lineage_query := fun _ => emptyGraph }

/-- The lineage graph of the spec's visualizer test: two artifacts, one
execution, no contexts, one INPUT event (artifact 1 → execution 10) and
one OUTPUT event (execution 10 → artifact 2). -/
def exampleGraph : LineageGraph :=
  { artifacts :=
      [ { id := 1, uri := "gs://bucket/in", type := "system.Dataset" },
        { id := 2, uri := "gs://bucket/out", type := "system.Model" } ],
    executions :=
      [ { id := 10, name := "trainer", type := "Trainer", custom_properties := [] } ],
    contexts := [],
    events :=
      [ { artifact_id := 1, execution_id := 10, type := .INPUT },
        { artifact_id := 2, execution_id := 10, type := .OUTPUT } ],
    associations := [], attributions := [] }

theorem get_executions_snd (run_id : String) (s : MetadataStore) :
    (KFPaleontologist.get_executions run_id s).2 = s := by
  simp only [KFPaleontologist.get_executions]
  split <;> rfl

theorem get_executions_eq_pair (run_id : String) (s : MetadataStore)
    (es : List Execution)
    (hes : (KFPaleontologist.get_executions run_id s).1 = .ok es) :
    KFPaleontologist.get_executions run_id s = (.ok es, s) :=
  Prod.ext_iff.mpr ⟨hes, get_executions_snd run_id s⟩

/-! ### Claim theorems -/

/-- C1: for a run with exactly one root execution named `run/{run_id}`
(the store's name query returns exactly that one execution) and N child
executions each carrying custom property `parent_dag_id` equal to the
root's id (the store's parent query returns exactly those children),
`get_executions(run_id)` returns exactly `1 + N` records, the root first
followed by the children. -/
theorem get_executions_root_and_children (s : MetadataStore) (run_id : String)
    (root : Execution) (children : List Execution)
    (_hname : root.name = "run/" ++ run_id)
    (hroot : s.executions_query ("name=\"run/" ++ run_id ++ "\"") = [root])
    (hchildren : s.executions_query
        ("custom_properties.parent_dag_id.int_value=" ++ toString root.id) = children)
    (_hcarry : ∀ e ∈ children, ("parent_dag_id", PValue.intV root.id) ∈ e.custom_properties) :
    (KFPaleontologist.get_executions run_id s).1 = .ok (root :: children) ∧
    (root :: children).length = 1 + children.length := by
  refine ⟨?_, by simp [Nat.add_comm]⟩
  simp [KFPaleontologist.get_executions, hroot, hchildren]

/-- Witness for C1 at the concrete store `sampleStore`: run `r1` has root
`sampleRoot` (id 7) and children `sampleChild1`, `sampleChild2`. -/
theorem get_executions_root_and_children_witness :
    (KFPaleontologist.get_executions "r1" sampleStore).1 =
      .ok [sampleRoot, sampleChild1, sampleChild2] :=
  (get_executions_root_and_children sampleStore "r1" sampleRoot
    [sampleChild1, sampleChild2] (by decide) (by decide) (by decide) (by decide)).1

/-- C2: `get_artifacts_by_custom_property` and
`get_executions_by_custom_property` query the store with the filter
`custom_properties.{name}.{typed}_value="{value}"`, where the suffix is
`string` for a string value and the lowercase runtime type name otherwise
(`int` for an integer, `float` for a float, `bool` for a bool); in
particular `("epoch", 5)` produces an `int_value` filter and
`("owner", "alice")` a `string_value` filter. -/
theorem get_by_custom_property_filter_suffix (s : MetadataStore)
    (custom_property : String) (value : PyValue) :
    ((KFPaleontologist.get_artifacts_by_custom_property custom_property value s).1 =
      s.artifacts_query ("custom_properties." ++ custom_property ++ "."
        ++ (match value with
            | .pyStr _ => "string"
            | .pyInt _ => "int"
            | .pyFloat _ => "float"
            | .pyBool _ => "bool")
        ++ "_value=\"" ++ value.str ++ "\"")) ∧
    ((KFPaleontologist.get_executions_by_custom_property custom_property value s).1 =
      s.executions_query ("custom_properties." ++ custom_property ++ "."
        ++ (match value with
            | .pyStr _ => "string"
            | .pyInt _ => "int"
            | .pyFloat _ => "float"
            | .pyBool _ => "bool")
        ++ "_value=\"" ++ value.str ++ "\"")) ∧
    ((KFPaleontologist.get_artifacts_by_custom_property "epoch" (.pyInt 5) s).1 =
      s.artifacts_query ("custom_properties.epoch.int_value=\"5\"")) ∧
    ((KFPaleontologist.get_artifacts_by_custom_property "owner" (.pyStr "alice") s).1 =
      s.artifacts_query ("custom_properties.owner.string_value=\"alice\"")) := by
  have hint : pyLower "int" = "int" := by decide
  have hfloat : pyLower "float" = "float" := by decide
  have hbool : pyLower "bool" = "bool" := by decide
  refine ⟨?_, ?_, congrArg s.artifacts_query (by decide),
      congrArg s.artifacts_query (by decide)⟩ <;>
    cases value <;>
    simp [KFPaleontologist.get_artifacts_by_custom_property,
      KFPaleontologist.get_executions_by_custom_property,
      PyValue.isStr, PyValue.typeName, PyValue.str, hint, hfloat, hbool]

/-- C4: when `get_executions` succeeds with executions `es` and every
event under them references a stored artifact, `get_artifacts_from_run`
returns one artifact entry per (execution, artifact) event pair, in the
store's event-listing order, without deduplication: the result is exactly
the event list mapped through artifact lookup, so its length equals the
number of events and an artifact linked to two executions of the run
appears twice. -/
theorem get_artifacts_from_run_one_per_event (s : MetadataStore)
    (run_id : String) (es : List Execution)
    (hes : (KFPaleontologist.get_executions run_id s).1 = .ok es)
    (hart : ∀ ev ∈ s.get_events_by_execution_ids (es.map (fun c => c.id)),
        (s.artifacts.find? (fun a => a.id == ev.artifact_id)).isSome) :
    ((KFPaleontologist.get_artifacts_from_run run_id s).1 =
      .ok ((s.get_events_by_execution_ids (es.map (fun c => c.id))).filterMap
        (fun ev => s.artifacts.find? (fun a => a.id == ev.artifact_id)))) ∧
    ((s.get_events_by_execution_ids (es.map (fun c => c.id))).filterMap
        (fun ev => s.artifacts.find? (fun a => a.id == ev.artifact_id))).length =
      (s.get_events_by_execution_ids (es.map (fun c => c.id))).length := by
  constructor
  · unfold KFPaleontologist.get_artifacts_from_run
    rw [get_executions_eq_pair run_id s es hes]
    simp only [MetadataStore.get_artifacts_by_id, List.filterMap_map]
    rfl
  · exact length_filterMap_of_isSome _ _ hart

/-- Witness for C4 at `sampleStore`: the dataset artifact 21 is consumed
by both container executions of run `r1`, so it appears twice in the
result. -/
theorem get_artifacts_from_run_one_per_event_witness :
    (KFPaleontologist.get_artifacts_from_run "r1" sampleStore).1 =
      .ok [sampleArtifact1, sampleArtifact1, sampleArtifact2] := by
  have h := (get_artifacts_from_run_one_per_event sampleStore "r1"
    [sampleRoot, sampleChild1, sampleChild2] rfl (by decide)).1
  exact h.trans (congrArg Except.ok (by decide))

/-- C5: `get_artifact_execution_history` fetches the events of the one
requested artifact id and returns the executions whose ids occur among
those events, each execution at most once (the store's id lookup has
set-membership semantics), assuming the store's execution ids are
unique. -/
theorem get_artifact_execution_history_distinct (s : MetadataStore)
    (artifact_id : Int)
    (hids : (s.executions.map (fun e => e.id)).Nodup) :
    ((KFPaleontologist.get_artifact_execution_history artifact_id s).1 =
      s.get_executions_by_id
        ((s.get_events_by_artifact_ids [artifact_id]).map (fun ev => ev.execution_id))) ∧
    (∀ e, e ∈ (KFPaleontologist.get_artifact_execution_history artifact_id s).1 ↔
      e ∈ s.executions ∧
        ∃ ev ∈ s.events, ev.artifact_id = artifact_id ∧ ev.execution_id = e.id) ∧
    ((KFPaleontologist.get_artifact_execution_history artifact_id s).1.map
        (fun e => e.id)).Nodup ∧
    (KFPaleontologist.get_artifact_execution_history artifact_id s).1.Nodup := by
  have hmap : ((KFPaleontologist.get_artifact_execution_history artifact_id s).1.map
      (fun e => e.id)).Nodup :=
    List.Nodup.sublist (List.Sublist.map _ (List.filter_sublist _)) hids
  refine ⟨rfl, ?_, hmap, List.Nodup.of_map _ hmap⟩
  intro e
  simp [KFPaleontologist.get_artifact_execution_history,
    MetadataStore.get_executions_by_id, MetadataStore.get_events_by_artifact_ids,
    List.mem_filter, List.elem_iff, List.mem_map, and_assoc]

/-- Witness for C5 at `histStore`: artifact 21 is linked to execution 8 by
two events and to execution 9 by one, yet each execution appears exactly
once in the history. -/
theorem get_artifact_execution_history_distinct_witness :
    ((KFPaleontologist.get_artifact_execution_history 21 histStore).1.map
      (fun e => e.id)).Nodup :=
  (get_artifact_execution_history_distinct histStore 21 (by decide)).2.2.1

/-- C6 (code bug): `get_artifact_by_uri` on a URI with zero matching
artifacts raises the generic `IndexError("list index out of range")` from
`artifacts[0]` instead of the `NotFound` error the spec requires; with
exactly one match it returns that artifact. -/
theorem get_artifact_by_uri_zero_and_one_match :
    ((KFPaleontologist.get_artifact_by_uri "gs://missing" emptyStore).1 =
      .error (.IndexError "list index out of range")) ∧
    ((KFPaleontologist.get_artifact_by_uri "gs://bucket/data" sampleStore).1 =
      .ok sampleArtifact1) := ⟨rfl, rfl⟩

/-- C3 (code bug): on a store whose name query returns no execution named
`run/{run_id}`, `get_executions` raises the generic
`IndexError("list index out of range")` from `run_executions[0]` instead of
the `NotFound` error the spec requires. -/
theorem get_executions_missing_run_index_error :
    (KFPaleontologist.get_executions "missing" emptyStore).1 =
      .error (.IndexError "list index out of range") := rfl

theorem attributionEdges_filter_self (l : List Attribution) :
    (l.map attributionEdge).filter (fun e => e.label == "attribution") =
      l.map attributionEdge := by
  rw [List.filter_eq_self]
  intro e he
  rcases List.mem_map.mp he with ⟨a, _, rfl⟩
  rfl

theorem attributionEdges_filter_other (l : List Attribution) (lbl : String)
    (h : lbl ≠ "attribution") :
    (l.map attributionEdge).filter (fun e => e.label == lbl) = [] := by
  rw [List.filter_eq_nil_iff]
  intro e he
  rcases List.mem_map.mp he with ⟨a, _, rfl⟩
  simp [attributionEdge, beq_iff_eq]
  exact fun hh => h hh.symm

theorem associationEdges_filter_self (l : List Association) :
    (l.map associationEdge).filter (fun e => e.label == "association") =
      l.map associationEdge := by
  rw [List.filter_eq_self]
  intro e he
  rcases List.mem_map.mp he with ⟨a, _, rfl⟩
  rfl

theorem associationEdges_filter_other (l : List Association) (lbl : String)
    (h : lbl ≠ "association") :
    (l.map associationEdge).filter (fun e => e.label == lbl) = [] := by
  rw [List.filter_eq_nil_iff]
  intro e he
  rcases List.mem_map.mp he with ⟨a, _, rfl⟩
  simp [associationEdge, beq_iff_eq]
  exact fun hh => h hh.symm

/-- C7: every `INPUT` event contributes a directed edge from the artifact
node to the execution node labeled "input" and every `OUTPUT` event one
from the execution node to the artifact node labeled "output"; the edge
list of the diagram (flags at their defaults) is exactly the event list
mapped through this translation, and the spec's example graph (2
artifacts, 1 execution, no contexts, one INPUT and one OUTPUT event)
yields exactly 3 nodes and those 2 labeled edges. -/
theorem visualize_lineage_event_edge_directions :
    (∀ g : LineageGraph,
      (KFPaleontologist.visualize_lineage g).edges = g.events.filterMap eventEdge) ∧
    (∀ a e : Int,
      eventEdge { artifact_id := a, execution_id := e, type := .INPUT } =
        some { src := "Artifact-" ++ toString a,
               dst := "Execution-" ++ toString e, label := "input" } ∧
      eventEdge { artifact_id := a, execution_id := e, type := .OUTPUT } =
        some { src := "Execution-" ++ toString e,
               dst := "Artifact-" ++ toString a, label := "output" }) ∧
    (KFPaleontologist.visualize_lineage exampleGraph).nodes.length = 3 ∧
    (KFPaleontologist.visualize_lineage exampleGraph).edges =
      [ { src := "Artifact-1", dst := "Execution-10", label := "input" },
        { src := "Execution-10", dst := "Artifact-2", label := "output" } ] := by
  refine ⟨?_, ?_, ?_, ?_⟩
  · intro g
    simpa using visualize_lineage_edges g false false
  · intro a e
    exact ⟨rfl, rfl⟩
  · rfl
  · rfl

/-- C8: `visualize_lineage` takes two independent boolean flags defaulting
to off; with the attribution flag on, it emits exactly one
Artifact→Context edge labeled "attribution" per Attribution record (and
none with it off), and with the association flag on exactly one
Execution→Context edge labeled "association" per Association record (and
none with it off). -/
theorem visualize_lineage_flag_edges :
    (∀ g : LineageGraph,
      KFPaleontologist.visualize_lineage g =
        KFPaleontologist.visualize_lineage g false false) ∧
    (∀ a c : Int,
      attributionEdge { artifact_id := a, context_id := c } =
        { src := "Artifact-" ++ toString a, dst := "Context-" ++ toString c,
          label := "attribution" } ∧
      associationEdge { execution_id := a, context_id := c } =
        { src := "Execution-" ++ toString a, dst := "Context-" ++ toString c,
          label := "association" }) ∧
    (∀ (g : LineageGraph) (assoc attrib : Bool),
      ((KFPaleontologist.visualize_lineage g assoc attrib).edges =
        g.events.filterMap eventEdge
          ++ (if attrib then g.attributions.map attributionEdge else [])
          ++ (if assoc then g.associations.map associationEdge else [])) ∧
      (((KFPaleontologist.visualize_lineage g assoc attrib).edges.filter
          (fun e => e.label == "attribution")).length =
        if attrib then g.attributions.length else 0) ∧
      (((KFPaleontologist.visualize_lineage g assoc attrib).edges.filter
          (fun e => e.label == "association")).length =
        if assoc then g.associations.length else 0)) := by
  refine ⟨fun g => rfl, fun a c => ⟨rfl, rfl⟩,
    fun g assoc attrib => ⟨visualize_lineage_edges g assoc attrib, ?_, ?_⟩⟩
  · rw [visualize_lineage_edges g assoc attrib, List.filter_append,
      List.filter_append, List.length_append, List.length_append,
      eventEdges_filter_other g.events "attribution" (by decide) (by decide)]
    cases attrib <;> cases assoc <;>
      simp [attributionEdges_filter_self,
        associationEdges_filter_other _ "attribution" (by decide)]
  · rw [visualize_lineage_edges g assoc attrib, List.filter_append,
      List.filter_append, List.length_append, List.length_append,
      eventEdges_filter_other g.events "association" (by decide) (by decide)]
    cases attrib <;> cases assoc <;>
      simp [associationEdges_filter_self,
        attributionEdges_filter_other _ "association" (by decide)]

/-- C9: every query-facade operation is read-only with respect to the
store: the store state returned by each `get_*` method equals the store
state it was called with. -/
theorem facade_read_only :
    ∀ (s : MetadataStore) (run_id uri type_name prop_name : String)
      (i : Int) (v : PyValue),
      (KFPaleontologist.get_executions run_id s).2 = s ∧
      (KFPaleontologist.get_artifacts_from_run run_id s).2 = s ∧
      (KFPaleontologist.get_artifacts_from_execution i s).2 = s ∧
      (KFPaleontologist.get_artifact_execution_history i s).2 = s ∧
      (KFPaleontologist.get_artifact_lineage i s).2 = s ∧
      (KFPaleontologist.get_artifact_by_id i s).2 = s ∧
      (KFPaleontologist.get_artifact_by_uri uri s).2 = s ∧
      (KFPaleontologist.get_execution_by_id i s).2 = s ∧
      (KFPaleontologist.get_artifacts_by_type type_name s).2 = s ∧
      (KFPaleontologist.get_executions_by_type type_name s).2 = s ∧
      (KFPaleontologist.get_artifacts_by_custom_property prop_name v s).2 = s ∧
      (KFPaleontologist.get_executions_by_custom_property prop_name v s).2 = s := by
  intro s run_id uri type_name prop_name i v
  refine ⟨get_executions_snd run_id s, ?_, rfl, rfl, rfl, ?_, ?_, ?_,
    rfl, rfl, rfl, rfl⟩
  · unfold KFPaleontologist.get_artifacts_from_run
    have hsnd := get_executions_snd run_id s
    cases h : KFPaleontologist.get_executions run_id s with
    | mk r st =>
      rw [h] at hsnd
      cases r <;> simpa using hsnd
  · unfold KFPaleontologist.get_artifact_by_id
    cases s.get_artifacts_by_id [i] <;> rfl
  · unfold KFPaleontologist.get_artifact_by_uri
    cases s.get_artifacts_by_uri uri <;> rfl
  · unfold KFPaleontologist.get_execution_by_id
    cases s.get_executions_by_id [i] <;> rfl

/-- C10: an event whose type is neither `INPUT` nor `OUTPUT` (such as
`DECLARED_INPUT`, `INTERNAL_INPUT`, `DECLARED_OUTPUT`, `INTERNAL_OUTPUT`,
`UNKNOWN` or `PENDING_OUTPUT`) contributes no edge to the diagram: the
diagram's edge count equals the number of events whose type is exactly
`INPUT` or `OUTPUT`. -/
theorem visualize_lineage_ignores_non_io_events :
    (∀ a e : Int,
      eventEdge { artifact_id := a, execution_id := e, type := .UNKNOWN } = none ∧
      eventEdge { artifact_id := a, execution_id := e, type := .DECLARED_INPUT } = none ∧
      eventEdge { artifact_id := a, execution_id := e, type := .DECLARED_OUTPUT } = none ∧
      eventEdge { artifact_id := a, execution_id := e, type := .INTERNAL_INPUT } = none ∧
      eventEdge { artifact_id := a, execution_id := e, type := .INTERNAL_OUTPUT } = none ∧
      eventEdge { artifact_id := a, execution_id := e, type := .PENDING_OUTPUT } = none) ∧
    (∀ g : LineageGraph,
      (KFPaleontologist.visualize_lineage g).edges.length =
        (g.events.filter (fun ev => ev.type == .INPUT || ev.type == .OUTPUT)).length) := by
  constructor
  · intro a e
    exact ⟨rfl, rfl, rfl, rfl, rfl, rfl⟩
  · intro g
    have h1 : (KFPaleontologist.visualize_lineage g).edges =
        g.events.filterMap eventEdge := by
      simpa using visualize_lineage_edges g false false
    rw [h1, length_filterMap_eq_length_filter]
    have h2 : ∀ ev : Event,
        (eventEdge ev).isSome = (ev.type == .INPUT || ev.type == .OUTPUT) := by
      intro ev
      rcases ev with ⟨a, e, t⟩
      cases t <;> rfl
    simp only [h2]

end MLMD
